import Mathlib

/-!
Shallow embedding of `src/options.rs` of the `asc-compiler-rs` repository:
a configuration type `CompilerOptions` together with the pure rendering
function `to_npx_command` that maps a configuration and two filesystem paths
to the command-line string invoking the AssemblyScript compiler.

Modelling choices:
* `flag_use` is a `HashMap<String, String>` in the source, iterated in an
  unspecified order.  It is embedded as a `List (String × String)` recording
  one possible iteration order; quantifying over all lists covers all
  iteration orders of the map.
* Rust paths printed with the `{:?}` (Debug) format specifier are embedded as
  `pathDebug`: the path string wrapped in double quotes with the standard
  two-character escapes for quote, backslash, newline, tab, carriage return
  and NUL.  (Unicode `\u` escapes of other control characters are elided;
  no property below depends on them.)
* The compile-time `cfg_if` selection of the launcher command is embedded as
  an explicit `Feature` argument, preserving the "exactly one active"
  invariant.
-/

namespace AscOptions

/-- Optimization levels of `OptimizationStrategy` in `options.rs` (default `O3`). -/
inductive OptimizationStrategy where
  | O1
  | O2
  | O3
deriving DecidableEq

/-- Runtime strategies of `RuntimeStrategy` in `options.rs` (default `Incremental`). -/
inductive RuntimeStrategy where
  | Incremental
  | Minimal
  | Stub
deriving DecidableEq

/-- Configuration record mirroring `struct CompilerOptions` in `options.rs`. -/
structure CompilerOptions where
  optimization_strategy : OptimizationStrategy
  enable_bulk_memory : Bool
  enable_sign_extension : Bool
  enable_nontrapping_f2i : Bool
  enable_export_memory : Bool
  flag_use : List (String × String)
  trap_on_abort : Bool
  runtime : RuntimeStrategy
  source : String

/-- Embedding of `CompilerOptions::default_for` in `options.rs`. -/
def CompilerOptions.default_for (library_source : String) : CompilerOptions where
  source := library_source
  trap_on_abort := true
  enable_bulk_memory := false
  enable_nontrapping_f2i := false
  enable_export_memory := false
  enable_sign_extension := false
  flag_use := []
  optimization_strategy := OptimizationStrategy.O3
  runtime := RuntimeStrategy.Incremental

/-- Compile-time feature selecting the JavaScript execution environment
(the `cfg_if` block in `to_npx_command`). -/
inductive Feature where
  | nodejs
  | bun
  | deno

/-- Launcher command string selected by the `cfg_if` block in `to_npx_command`. -/
def runtimeCommand : Feature → String
  | Feature.nodejs => "node ./node_modules/assemblyscript/bin/asc.js"
  | Feature.bun => "~/.bun/bin/bunx assemblyscript@0.27.27/asc"
  | Feature.deno =>
      "deno run --allow-read --allow-write --allow-env \x27npm:assemblyscript@0.27.27/asc\x27"

/-- Escape of one character under Rust Debug formatting of a path
(quote, backslash and the common control characters; see module docstring). -/
def escapeChar (c : Char) : String :=
  if c = '"' then "\\\""
  else if c = '\\' then "\\\\"
  else if c = '\n' then "\\n"
  else if c = '\t' then "\\t"
  else if c = '\r' then "\\r"
  else if c = '\x00' then "\\0"
  else String.singleton c

/-- Concatenation of the escapes of a list of characters. -/
def escapeList : List Char → String
  | [] => ""
  | c :: cs => escapeChar c ++ escapeList cs

/-- Body of the Rust Debug rendering of a path: every character escaped. -/
def escapeDebug (s : String) : String := escapeList s.data

/-- Embedding of the Rust `{:?}` (Debug) rendering of a path:
the escaped path wrapped in double quotes. -/
def pathDebug (s : String) : String := "\"" ++ escapeDebug s ++ "\""

/-- Rendering of one `flag_use` entry, mirroring `format!("{key}={value}")`. -/
def kvToken (kv : String × String) : String := kv.1 ++ "=" ++ kv.2

/-- Embedding of the `flag_bulk_memory` binding in `to_npx_command`. -/
def CompilerOptions.flag_bulk_memory (o : CompilerOptions) : String :=
  if o.enable_bulk_memory then "" else "--disable bulk-memory "

/-- Embedding of the `flag_sign_extension` binding in `to_npx_command`. -/
def CompilerOptions.flag_sign_extension (o : CompilerOptions) : String :=
  if o.enable_sign_extension then "" else "--disable sign-extension "

/-- Embedding of the `flag_non_trapping_f2i` binding in `to_npx_command`. -/
def CompilerOptions.flag_non_trapping_f2i (o : CompilerOptions) : String :=
  if o.enable_nontrapping_f2i then "" else "--disable nontrapping-f2i "

/-- Embedding of the `flag_export_memory` binding in `to_npx_command`. -/
def CompilerOptions.flag_export_memory (o : CompilerOptions) : String :=
  if o.enable_export_memory then "" else "--noExportMemory "

/-- Embedding of the `flag_runtime` binding in `to_npx_command`. -/
def CompilerOptions.flag_runtime (o : CompilerOptions) : String :=
  match o.runtime with
  | RuntimeStrategy.Minimal => "--runtime minimal "
  | RuntimeStrategy.Incremental => "--runtime incremental "
  | RuntimeStrategy.Stub => "--runtime stub "

/-- Embedding of the `flag_optimization` binding in `to_npx_command`. -/
def CompilerOptions.flag_optimization (o : CompilerOptions) : String :=
  match o.optimization_strategy with
  | OptimizationStrategy.O1 => "-O1 "
  | OptimizationStrategy.O2 => "-O2 "
  | OptimizationStrategy.O3 => "-O3 "

/-- Embedding of the `flag_use` binding in `to_npx_command`: the 2x2 match on
`(self.flag_use.is_empty(), self.trap_on_abort)`.  In the trap branch the
source chains the fixed pair `("abort", "custom_abort")` after the map
iteration before joining with single spaces. -/
def CompilerOptions.flag_use_clause (o : CompilerOptions) : String :=
  match o.flag_use.isEmpty, o.trap_on_abort with
  | true, false => ""
  | false, false =>
      "--use " ++ String.intercalate " " (o.flag_use.map kvToken) ++ " "
  | _, true =>
      "--lib . --use " ++
        String.intercalate " " ((o.flag_use ++ [("abort", "custom_abort")]).map kvToken) ++ " "

/-- Embedding of `CompilerOptions::to_npx_command` in `options.rs`: the final
`format!` concatenating the launcher, the Debug-quoted paths and the flag
clauses, each clause carrying its trailing space. -/
def CompilerOptions.to_npx_command (o : CompilerOptions) (feature : Feature)
    (source_path output_path : String) : String :=
  runtimeCommand feature ++ " " ++ pathDebug source_path ++ " -o " ++ pathDebug output_path ++
    " " ++ o.flag_optimization ++ o.flag_bulk_memory ++ o.flag_sign_extension ++
    o.flag_non_trapping_f2i ++ o.flag_runtime ++ o.flag_export_memory ++ o.flag_use_clause

/-- Sequence of `key=value` tokens of the custom-bindings clause: the map
entries in iteration order, followed by the synthetic `abort=custom_abort`
pair exactly when `trap_on_abort` is set. -/
def CompilerOptions.use_tokens (o : CompilerOptions) : List String :=
  if o.trap_on_abort then (o.flag_use ++ [("abort", "custom_abort")]).map kvToken
  else o.flag_use.map kvToken

/-- Concatenation of a token list with one trailing space per token. -/
def catTokens : List String → String
  | [] => ""
  | t :: ts => t ++ " " ++ catTokens ts

/-- Whitespace-separated tokens of each launcher command. -/
def launcherTokens : Feature → List String
  | Feature.nodejs => ["node", "./node_modules/assemblyscript/bin/asc.js"]
  | Feature.bun => ["~/.bun/bin/bunx", "assemblyscript@0.27.27/asc"]
  | Feature.deno =>
      ["deno", "run", "--allow-read", "--allow-write", "--allow-env",
       "\x27npm:assemblyscript@0.27.27/asc\x27"]

/-- Tokens contributed by the optimization clause. -/
def CompilerOptions.opt_tokens (o : CompilerOptions) : List String :=
  match o.optimization_strategy with
  | OptimizationStrategy.O1 => ["-O1"]
  | OptimizationStrategy.O2 => ["-O2"]
  | OptimizationStrategy.O3 => ["-O3"]

/-- Tokens contributed by the bulk-memory clause. -/
def CompilerOptions.bulk_tokens (o : CompilerOptions) : List String :=
  if o.enable_bulk_memory then [] else ["--disable", "bulk-memory"]

/-- Tokens contributed by the sign-extension clause. -/
def CompilerOptions.sign_tokens (o : CompilerOptions) : List String :=
  if o.enable_sign_extension then [] else ["--disable", "sign-extension"]

/-- Tokens contributed by the nontrapping-f2i clause. -/
def CompilerOptions.f2i_tokens (o : CompilerOptions) : List String :=
  if o.enable_nontrapping_f2i then [] else ["--disable", "nontrapping-f2i"]

/-- Tokens contributed by the runtime clause. -/
def CompilerOptions.runtime_tokens (o : CompilerOptions) : List String :=
  match o.runtime with
  | RuntimeStrategy.Minimal => ["--runtime", "minimal"]
  | RuntimeStrategy.Incremental => ["--runtime", "incremental"]
  | RuntimeStrategy.Stub => ["--runtime", "stub"]

/-- Tokens contributed by the export-memory clause. -/
def CompilerOptions.export_tokens (o : CompilerOptions) : List String :=
  if o.enable_export_memory then [] else ["--noExportMemory"]

/-- Tokens contributed by the custom-bindings clause. -/
def CompilerOptions.use_clause_tokens (o : CompilerOptions) : List String :=
  match o.flag_use.isEmpty, o.trap_on_abort with
  | true, false => []
  | false, false => "--use" :: o.flag_use.map kvToken
  | _, true => "--lib" :: "." :: "--use" :: (o.flag_use ++ [("abort", "custom_abort")]).map kvToken

/-- Full whitespace-separated token sequence of the rendered command. -/
def CompilerOptions.command_tokens (o : CompilerOptions) (f : Feature)
    (sp op : String) : List String :=
  launcherTokens f ++ [pathDebug sp, "-o", pathDebug op] ++ o.opt_tokens ++ o.bulk_tokens ++
    o.sign_tokens ++ o.f2i_tokens ++ o.runtime_tokens ++ o.export_tokens ++ o.use_clause_tokens

/-- Accumulator-based whitespace tokenizer over a character list: maximal
whitespace-free runs, in order. -/
def wordsAux : List Char → List Char → List (List Char)
  | [], acc => if acc = [] then [] else [acc.reverse]
  | c :: cs, acc =>
      if c.isWhitespace then
        if acc = [] then wordsAux cs [] else acc.reverse :: wordsAux cs []
      else wordsAux cs (c :: acc)

/-- Tokenization of a string on whitespace. -/
def tokensOf (s : String) : List String := (wordsAux s.data []).map String.mk

/-- Predicate: the string contains no whitespace character. -/
def wsFree (s : String) : Prop := ∀ c ∈ s.data, c.isWhitespace = false

instance : DecidablePred wsFree := fun s => by
  unfold wsFree
  infer_instance

/-- Recognizer of an optimization-level token. -/
def isOptTok (t : String) : Bool := t == "-O1" || t == "-O2" || t == "-O3"

/-- Recognizer of the runtime flag token. -/
def isRuntimeTok (t : String) : Bool := t == "--runtime"

/-- Occurrence of `p` as a contiguous substring of `s`. -/
def occursIn (p s : String) : Prop := List.IsInfix p.data s.data

instance (p s : String) : Decidable (occursIn p s) := by
  unfold occursIn
  infer_instance

/-- Occurrence of a list of clauses inside a string, in the given order and
without overlap. -/
def containsInOrder : String → List String → Prop
  | _, [] => True
  | s, c :: cs => ∃ a b, s = a ++ (c ++ b) ∧ containsInOrder b cs

theorem sappend_empty (s : String) : s ++ "" = s := by
  apply String.ext
  simp [String.data_append]

theorem sempty_append (s : String) : "" ++ s = s := by
  apply String.ext
  simp [String.data_append]

theorem catTokens_append (a b : List String) :
    catTokens (a ++ b) = catTokens a ++ catTokens b := by
  induction a with
  | nil => simp [catTokens, sempty_append]
  | cons t ts ih => simp [catTokens, ih, String.append_assoc]

theorem intercalate_go_append (ts : List String) : ∀ (x y : String),
    String.intercalate.go (x ++ " " ++ y) " " ts = x ++ " " ++ String.intercalate.go y " " ts := by
  induction ts with
  | nil =>
      intro x y
      rfl
  | cons c ts ih =>
      intro x y
      show String.intercalate.go (x ++ " " ++ y ++ " " ++ c) " " ts = _
      rw [show x ++ " " ++ y ++ " " ++ c = x ++ " " ++ (y ++ " " ++ c) by
        simp [String.append_assoc]]
      rw [ih]
      rfl

theorem intercalate_space_cat : ∀ (ts : List String), ts ≠ [] →
    String.intercalate " " ts ++ " " = catTokens ts := by
  intro ts
  induction ts with
  | nil =>
      intro h
      exact absurd rfl h
  | cons t ts ih =>
      intro _
      cases ts with
      | nil =>
          show String.intercalate " " [t] ++ " " = t ++ " " ++ catTokens []
          rw [show catTokens [] = "" from rfl, sappend_empty]
          rfl
      | cons u us =>
          show String.intercalate.go (t ++ " " ++ u) " " us ++ " " = t ++ " " ++ catTokens (u :: us)
          rw [← ih (by simp)]
          rw [intercalate_go_append]
          simp [String.append_assoc]
          rfl

theorem launcher_cat (f : Feature) : catTokens (launcherTokens f) = runtimeCommand f ++ " " := by
  cases f <;> rfl

theorem paths_cat (sp op : String) :
    catTokens [pathDebug sp, "-o", pathDebug op] = pathDebug sp ++ " -o " ++ pathDebug op ++ " " := by
  show pathDebug sp ++ " " ++ ("-o" ++ " " ++ (pathDebug op ++ " " ++ catTokens [])) = _
  rw [show catTokens [] = "" from rfl, sappend_empty]
  simp only [String.append_assoc]
  rw [← String.append_assoc "-o" " ", show (("-o" : String) ++ " ") = "-o " from rfl]
  rw [← String.append_assoc " " "-o ", show ((" " : String) ++ "-o ") = " -o " from rfl]

theorem opt_cat (o : CompilerOptions) : catTokens o.opt_tokens = o.flag_optimization := by
  unfold CompilerOptions.opt_tokens CompilerOptions.flag_optimization
  cases o.optimization_strategy <;> rfl

theorem bulk_cat (o : CompilerOptions) : catTokens o.bulk_tokens = o.flag_bulk_memory := by
  unfold CompilerOptions.bulk_tokens CompilerOptions.flag_bulk_memory
  cases o.enable_bulk_memory <;> rfl

theorem sign_cat (o : CompilerOptions) : catTokens o.sign_tokens = o.flag_sign_extension := by
  unfold CompilerOptions.sign_tokens CompilerOptions.flag_sign_extension
  cases o.enable_sign_extension <;> rfl

theorem f2i_cat (o : CompilerOptions) : catTokens o.f2i_tokens = o.flag_non_trapping_f2i := by
  unfold CompilerOptions.f2i_tokens CompilerOptions.flag_non_trapping_f2i
  cases o.enable_nontrapping_f2i <;> rfl

theorem runtime_cat (o : CompilerOptions) : catTokens o.runtime_tokens = o.flag_runtime := by
  unfold CompilerOptions.runtime_tokens CompilerOptions.flag_runtime
  cases o.runtime <;> rfl

theorem export_cat (o : CompilerOptions) : catTokens o.export_tokens = o.flag_export_memory := by
  unfold CompilerOptions.export_tokens CompilerOptions.flag_export_memory
  cases o.enable_export_memory <;> rfl

theorem use_cat (o : CompilerOptions) : catTokens o.use_clause_tokens = o.flag_use_clause := by
  unfold CompilerOptions.use_clause_tokens CompilerOptions.flag_use_clause
  cases hE : o.flag_use.isEmpty <;> cases hT : o.trap_on_abort
  case false.false =>
      have hne : o.flag_use.map kvToken ≠ [] := by
        cases hu : o.flag_use with
        | nil => rw [hu] at hE; simp at hE
        | cons a l => simp [hu]
      show "--use" ++ " " ++ catTokens (o.flag_use.map kvToken) = _
      rw [← intercalate_space_cat _ hne]
      simp [String.append_assoc]
  case false.true =>
      have hne : (o.flag_use ++ [("abort", "custom_abort")]).map kvToken ≠ [] := by simp
      show "--lib" ++ " " ++ ("." ++ " " ++ ("--use" ++ " " ++
        catTokens ((o.flag_use ++ [("abort", "custom_abort")]).map kvToken))) = _
      rw [← intercalate_space_cat _ hne]
      simp only [String.append_assoc]
      rw [← String.append_assoc "--use" " ", show (("--use" : String) ++ " ") = "--use " from rfl]
      rw [← String.append_assoc " " "--use ", show ((" " : String) ++ "--use ") = " --use " from rfl]
      rw [← String.append_assoc "." " --use ", show (("." : String) ++ " --use ") = ". --use " from rfl]
      rw [← String.append_assoc " " ". --use ",
        show ((" " : String) ++ ". --use ") = " . --use " from rfl]
      rw [← String.append_assoc "--lib" " . --use ",
        show (("--lib" : String) ++ " . --use ") = "--lib . --use " from rfl]
  case true.false => rfl
  case true.true =>
      have hne : (o.flag_use ++ [("abort", "custom_abort")]).map kvToken ≠ [] := by simp
      show "--lib" ++ " " ++ ("." ++ " " ++ ("--use" ++ " " ++
        catTokens ((o.flag_use ++ [("abort", "custom_abort")]).map kvToken))) = _
      rw [← intercalate_space_cat _ hne]
      simp only [String.append_assoc]
      rw [← String.append_assoc "--use" " ", show (("--use" : String) ++ " ") = "--use " from rfl]
      rw [← String.append_assoc " " "--use ", show ((" " : String) ++ "--use ") = " --use " from rfl]
      rw [← String.append_assoc "." " --use ", show (("." : String) ++ " --use ") = ". --use " from rfl]
      rw [← String.append_assoc " " ". --use ",
        show ((" " : String) ++ ". --use ") = " . --use " from rfl]
      rw [← String.append_assoc "--lib" " . --use ",
        show (("--lib" : String) ++ " . --use ") = "--lib . --use " from rfl]

theorem to_npx_cat (o : CompilerOptions) (f : Feature) (sp op : String) :
    o.to_npx_command f sp op = catTokens (o.command_tokens f sp op) := by
  unfold CompilerOptions.command_tokens
  simp only [catTokens_append]
  rw [launcher_cat, paths_cat, opt_cat, bulk_cat, sign_cat, f2i_cat, runtime_cat, export_cat,
    use_cat]
  unfold CompilerOptions.to_npx_command
  simp [String.append_assoc]

theorem wordsAux_chunk (t : List Char) (h : ∀ c ∈ t, c.isWhitespace = false) :
    ∀ (rest acc : List Char), wordsAux (t ++ rest) acc = wordsAux rest (t.reverse ++ acc) := by
  induction t with
  | nil =>
      intro rest acc
      simp
  | cons c cs ih =>
      intro rest acc
      have hc : c.isWhitespace = false := h c (by simp)
      show wordsAux (c :: (cs ++ rest)) acc = _
      simp only [wordsAux, hc, Bool.false_eq_true, if_false]
      rw [ih (fun d hd => h d (by simp [hd])) rest (c :: acc)]
      simp

theorem wordsAux_space (rest acc : List Char) :
    wordsAux (' ' :: rest) acc =
      if acc = [] then wordsAux rest [] else acc.reverse :: wordsAux rest [] := by
  simp [wordsAux]

theorem wordsAux_catTokens : ∀ (ts : List String),
    (∀ t ∈ ts, t.data ≠ [] ∧ ∀ c ∈ t.data, c.isWhitespace = false) →
    wordsAux (catTokens ts).data [] = ts.map String.data := by
  intro ts
  induction ts with
  | nil =>
      intro _
      simp [catTokens, wordsAux]
  | cons t ts ih =>
      intro h
      obtain ⟨hne, hws⟩ := h t (by simp)
      have hdata : (catTokens (t :: ts)).data = t.data ++ (' ' :: (catTokens ts).data) := by
        show ((t ++ " ") ++ catTokens ts).data = _
        rw [String.data_append, String.data_append]
        rw [show (" " : String).data = [' '] from rfl]
        simp
      rw [hdata, wordsAux_chunk t.data hws, wordsAux_space]
      rw [if_neg (by simp [hne]), List.append_nil, List.reverse_reverse]
      rw [ih (fun u hu => h u (by simp [hu]))]
      rfl

theorem tokensOf_cat (ts : List String)
    (h : ∀ t ∈ ts, t.data ≠ [] ∧ ∀ c ∈ t.data, c.isWhitespace = false) :
    tokensOf (catTokens ts) = ts := by
  unfold tokensOf
  rw [wordsAux_catTokens ts h]
  induction ts with
  | nil => rfl
  | cons t ts ih =>
      show String.mk t.data :: (ts.map String.data).map String.mk = t :: ts
      exact congrArg (List.cons t) (ih (fun u hu => h u (by simp [hu])))

theorem escapeChar_wsFree (c : Char) (hc : c.isWhitespace = false) :
    ∀ d ∈ (escapeChar c).data, d.isWhitespace = false := by
  intro d hd
  unfold escapeChar at hd
  split_ifs at hd
  · exact (by decide : ∀ d ∈ ['\\', '"'], d.isWhitespace = false) d hd
  · exact (by decide : ∀ d ∈ ['\\', '\\'], d.isWhitespace = false) d hd
  · exact (by decide : ∀ d ∈ ['\\', 'n'], d.isWhitespace = false) d hd
  · exact (by decide : ∀ d ∈ ['\\', 't'], d.isWhitespace = false) d hd
  · exact (by decide : ∀ d ∈ ['\\', 'r'], d.isWhitespace = false) d hd
  · exact (by decide : ∀ d ∈ ['\\', '0'], d.isWhitespace = false) d hd
  · have hd' : d ∈ [c] := hd
    simp at hd'
    rw [hd']
    exact hc

theorem escapeList_wsFree : ∀ (l : List Char), (∀ c ∈ l, c.isWhitespace = false) →
    ∀ d ∈ (escapeList l).data, d.isWhitespace = false := by
  intro l
  induction l with
  | nil =>
      intro _ d hd
      exact absurd hd (List.not_mem_nil d)
  | cons c cs ih =>
      intro h d hd
      have hd' : d ∈ (escapeChar c).data ++ (escapeList cs).data := by
        rw [← String.data_append]
        exact hd
      rcases List.mem_append.mp hd' with h1 | h2
      · exact escapeChar_wsFree c (h c (by simp)) d h1
      · exact ih (fun u hu => h u (by simp [hu])) d h2

theorem pathDebug_data (s : String) :
    (pathDebug s).data = '"' :: ((escapeDebug s).data ++ ['"']) := by
  show (("\"" ++ escapeDebug s) ++ "\"").data = _
  rw [String.data_append, String.data_append]
  rw [show ("\"" : String).data = ['"'] from rfl]
  simp

theorem pathDebug_wsFree (s : String) (h : wsFree s) :
    ∀ d ∈ (pathDebug s).data, d.isWhitespace = false := by
  intro d hd
  rw [pathDebug_data] at hd
  rcases List.mem_cons.mp hd with h1 | h2
  · rw [h1]
    decide
  · rcases List.mem_append.mp h2 with h3 | h4
    · exact escapeList_wsFree s.data h d h3
    · have : d = '"' := by simpa using h4
      rw [this]
      decide

theorem pathDebug_ne_empty (s : String) : (pathDebug s).data ≠ [] := by
  rw [pathDebug_data]
  simp

theorem kvToken_data (k v : String) : (kvToken (k, v)).data = k.data ++ ('=' :: v.data) := by
  show ((k ++ "=") ++ v).data = _
  rw [String.data_append, String.data_append]
  rw [show ("=" : String).data = ['='] from rfl]
  simp

theorem pathDebug_ne (s t : String) (ht : t.data.head? ≠ some '"') : pathDebug s ≠ t := by
  intro h
  apply ht
  rw [← h, pathDebug_data]
  rfl

theorem kvToken_ne (k v t : String) (ht : '=' ∉ t.data) : kvToken (k, v) ≠ t := by
  intro h
  apply ht
  rw [← h, kvToken_data]
  simp

theorem isOptTok_pathDebug (s : String) : isOptTok (pathDebug s) = false := by
  simp only [isOptTok, Bool.or_eq_false_iff, beq_eq_false_iff_ne]
  exact ⟨⟨pathDebug_ne s _ (by decide), pathDebug_ne s _ (by decide)⟩,
    pathDebug_ne s _ (by decide)⟩

theorem isRuntimeTok_pathDebug (s : String) : isRuntimeTok (pathDebug s) = false := by
  simp only [isRuntimeTok, beq_eq_false_iff_ne]
  exact pathDebug_ne s _ (by decide)

theorem isOptTok_kvToken (kv : String × String) : isOptTok (kvToken kv) = false := by
  obtain ⟨k, v⟩ := kv
  simp only [isOptTok, Bool.or_eq_false_iff, beq_eq_false_iff_ne]
  exact ⟨⟨kvToken_ne k v _ (by decide), kvToken_ne k v _ (by decide)⟩,
    kvToken_ne k v _ (by decide)⟩

theorem isRuntimeTok_kvToken (kv : String × String) : isRuntimeTok (kvToken kv) = false := by
  obtain ⟨k, v⟩ := kv
  simp only [isRuntimeTok, beq_eq_false_iff_ne]
  exact kvToken_ne k v _ (by decide)

theorem kv_map_wf (l : List (String × String))
    (h : ∀ kv ∈ l, wsFree kv.1 ∧ wsFree kv.2) :
    ∀ t ∈ l.map kvToken, t.data ≠ [] ∧ ∀ c ∈ t.data, c.isWhitespace = false := by
  intro t ht
  rcases List.mem_map.mp ht with ⟨⟨k, v⟩, hm, rfl⟩
  obtain ⟨hk, hv⟩ := h _ hm
  constructor
  · rw [kvToken_data]
    simp
  · intro c hc
    rw [kvToken_data] at hc
    rcases List.mem_append.mp hc with h1 | h2
    · exact hk c h1
    · rcases List.mem_cons.mp h2 with h3 | h4
      · rw [h3]
        decide
      · exact hv c h4

theorem use_clause_tokens_wf (o : CompilerOptions)
    (hkv : ∀ kv ∈ o.flag_use, wsFree kv.1 ∧ wsFree kv.2) :
    ∀ t ∈ o.use_clause_tokens, t.data ≠ [] ∧ ∀ c ∈ t.data, c.isWhitespace = false := by
  have hall : ∀ kv ∈ o.flag_use ++ [("abort", "custom_abort")], wsFree kv.1 ∧ wsFree kv.2 := by
    intro kv hkv'
    rcases List.mem_append.mp hkv' with h1 | h2
    · exact hkv kv h1
    · have h3 : kv = ("abort", "custom_abort") := by simpa using h2
      rw [h3]
      exact ⟨by decide, by decide⟩
  unfold CompilerOptions.use_clause_tokens
  cases hE : o.flag_use.isEmpty <;> cases hT : o.trap_on_abort <;> intro t ht
  case false.false =>
      rcases List.mem_cons.mp ht with h1 | h2
      · rw [h1]
        exact ⟨by decide, by decide⟩
      · exact kv_map_wf o.flag_use hkv t h2
  case false.true =>
      rcases List.mem_cons.mp ht with h1 | h2
      · rw [h1]
        exact ⟨by decide, by decide⟩
      rcases List.mem_cons.mp h2 with h3 | h4
      · rw [h3]
        exact ⟨by decide, by decide⟩
      rcases List.mem_cons.mp h4 with h5 | h6
      · rw [h5]
        exact ⟨by decide, by decide⟩
      · exact kv_map_wf _ hall t h6
  case true.false => exact absurd ht (List.not_mem_nil t)
  case true.true =>
      rcases List.mem_cons.mp ht with h1 | h2
      · rw [h1]
        exact ⟨by decide, by decide⟩
      rcases List.mem_cons.mp h2 with h3 | h4
      · rw [h3]
        exact ⟨by decide, by decide⟩
      rcases List.mem_cons.mp h4 with h5 | h6
      · rw [h5]
        exact ⟨by decide, by decide⟩
      · exact kv_map_wf _ hall t h6

theorem command_tokens_wf (o : CompilerOptions) (f : Feature) (sp op : String)
    (hsp : wsFree sp) (hop : wsFree op)
    (hkv : ∀ kv ∈ o.flag_use, wsFree kv.1 ∧ wsFree kv.2) :
    ∀ t ∈ o.command_tokens f sp op, t.data ≠ [] ∧ ∀ c ∈ t.data, c.isWhitespace = false := by
  intro t ht
  unfold CompilerOptions.command_tokens at ht
  simp only [List.append_assoc, List.mem_append] at ht
  rcases ht with h | h | h | h | h | h | h | h | h
  · have hL : ∀ u ∈ launcherTokens f, u.data ≠ [] ∧ ∀ c ∈ u.data, c.isWhitespace = false := by
      cases f <;> decide
    exact hL t h
  · rcases List.mem_cons.mp h with h1 | h2
    · rw [h1]
      exact ⟨pathDebug_ne_empty sp, pathDebug_wsFree sp hsp⟩
    rcases List.mem_cons.mp h2 with h3 | h4
    · rw [h3]
      exact ⟨by decide, by decide⟩
    · have h5 : t = pathDebug op := by simpa using h4
      rw [h5]
      exact ⟨pathDebug_ne_empty op, pathDebug_wsFree op hop⟩
  · have hO : ∀ u ∈ o.opt_tokens, u.data ≠ [] ∧ ∀ c ∈ u.data, c.isWhitespace = false := by
      unfold CompilerOptions.opt_tokens
      cases o.optimization_strategy <;> decide
    exact hO t h
  · have hB : ∀ u ∈ o.bulk_tokens, u.data ≠ [] ∧ ∀ c ∈ u.data, c.isWhitespace = false := by
      unfold CompilerOptions.bulk_tokens
      cases o.enable_bulk_memory <;> decide
    exact hB t h
  · have hS : ∀ u ∈ o.sign_tokens, u.data ≠ [] ∧ ∀ c ∈ u.data, c.isWhitespace = false := by
      unfold CompilerOptions.sign_tokens
      cases o.enable_sign_extension <;> decide
    exact hS t h
  · have hF : ∀ u ∈ o.f2i_tokens, u.data ≠ [] ∧ ∀ c ∈ u.data, c.isWhitespace = false := by
      unfold CompilerOptions.f2i_tokens
      cases o.enable_nontrapping_f2i <;> decide
    exact hF t h
  · have hR : ∀ u ∈ o.runtime_tokens, u.data ≠ [] ∧ ∀ c ∈ u.data, c.isWhitespace = false := by
      unfold CompilerOptions.runtime_tokens
      cases o.runtime <;> decide
    exact hR t h
  · have hE : ∀ u ∈ o.export_tokens, u.data ≠ [] ∧ ∀ c ∈ u.data, c.isWhitespace = false := by
      unfold CompilerOptions.export_tokens
      cases o.enable_export_memory <;> decide
    exact hE t h
  · exact use_clause_tokens_wf o hkv t h

theorem tokensOf_to_npx (o : CompilerOptions) (f : Feature) (sp op : String)
    (hsp : wsFree sp) (hop : wsFree op)
    (hkv : ∀ kv ∈ o.flag_use, wsFree kv.1 ∧ wsFree kv.2) :
    tokensOf (o.to_npx_command f sp op) = o.command_tokens f sp op := by
  rw [to_npx_cat]
  exact tokensOf_cat _ (command_tokens_wf o f sp op hsp hop hkv)

theorem countP_kv_map_opt (l : List (String × String)) :
    (l.map kvToken).countP isOptTok = 0 := by
  rw [List.countP_eq_zero]
  intro t ht
  rcases List.mem_map.mp ht with ⟨kv, _, rfl⟩
  simp [isOptTok_kvToken]

theorem countP_kv_map_runtime (l : List (String × String)) :
    (l.map kvToken).countP isRuntimeTok = 0 := by
  rw [List.countP_eq_zero]
  intro t ht
  rcases List.mem_map.mp ht with ⟨kv, _, rfl⟩
  simp [isRuntimeTok_kvToken]

theorem countP_opt_command (o : CompilerOptions) (f : Feature) (sp op : String) :
    (o.command_tokens f sp op).countP isOptTok = 1 := by
  unfold CompilerOptions.command_tokens
  simp only [List.countP_append]
  have hl : (launcherTokens f).countP isOptTok = 0 := by cases f <;> decide
  have hp : ([pathDebug sp, "-o", pathDebug op]).countP isOptTok = 0 := by
    simp [List.countP_cons, isOptTok_pathDebug, show isOptTok "-o" = false from by decide]
  have ho : o.opt_tokens.countP isOptTok = 1 := by
    unfold CompilerOptions.opt_tokens
    cases o.optimization_strategy <;> decide
  have hb : o.bulk_tokens.countP isOptTok = 0 := by
    unfold CompilerOptions.bulk_tokens
    cases o.enable_bulk_memory <;> decide
  have hs : o.sign_tokens.countP isOptTok = 0 := by
    unfold CompilerOptions.sign_tokens
    cases o.enable_sign_extension <;> decide
  have hf : o.f2i_tokens.countP isOptTok = 0 := by
    unfold CompilerOptions.f2i_tokens
    cases o.enable_nontrapping_f2i <;> decide
  have hr : o.runtime_tokens.countP isOptTok = 0 := by
    unfold CompilerOptions.runtime_tokens
    cases o.runtime <;> decide
  have he : o.export_tokens.countP isOptTok = 0 := by
    unfold CompilerOptions.export_tokens
    cases o.enable_export_memory <;> decide
  have hu : o.use_clause_tokens.countP isOptTok = 0 := by
    unfold CompilerOptions.use_clause_tokens
    cases o.flag_use.isEmpty <;> cases o.trap_on_abort <;>
      simp [List.countP_cons, countP_kv_map_opt, isOptTok_kvToken,
        show isOptTok "--use" = false from by decide,
        show isOptTok "--lib" = false from by decide,
        show isOptTok "." = false from by decide]
  rw [hl, hp, ho, hb, hs, hf, hr, he, hu]

theorem countP_runtime_command (o : CompilerOptions) (f : Feature) (sp op : String) :
    (o.command_tokens f sp op).countP isRuntimeTok = 1 := by
  unfold CompilerOptions.command_tokens
  simp only [List.countP_append]
  have hl : (launcherTokens f).countP isRuntimeTok = 0 := by cases f <;> decide
  have hp : ([pathDebug sp, "-o", pathDebug op]).countP isRuntimeTok = 0 := by
    simp [List.countP_cons, isRuntimeTok_pathDebug, show isRuntimeTok "-o" = false from by decide]
  have ho : o.opt_tokens.countP isRuntimeTok = 0 := by
    unfold CompilerOptions.opt_tokens
    cases o.optimization_strategy <;> decide
  have hb : o.bulk_tokens.countP isRuntimeTok = 0 := by
    unfold CompilerOptions.bulk_tokens
    cases o.enable_bulk_memory <;> decide
  have hs : o.sign_tokens.countP isRuntimeTok = 0 := by
    unfold CompilerOptions.sign_tokens
    cases o.enable_sign_extension <;> decide
  have hf : o.f2i_tokens.countP isRuntimeTok = 0 := by
    unfold CompilerOptions.f2i_tokens
    cases o.enable_nontrapping_f2i <;> decide
  have hr : o.runtime_tokens.countP isRuntimeTok = 1 := by
    unfold CompilerOptions.runtime_tokens
    cases o.runtime <;> decide
  have he : o.export_tokens.countP isRuntimeTok = 0 := by
    unfold CompilerOptions.export_tokens
    cases o.enable_export_memory <;> decide
  have hu : o.use_clause_tokens.countP isRuntimeTok = 0 := by
    unfold CompilerOptions.use_clause_tokens
    cases o.flag_use.isEmpty <;> cases o.trap_on_abort <;>
      simp [List.countP_cons, countP_kv_map_runtime, isRuntimeTok_kvToken,
        show isRuntimeTok "--use" = false from by decide,
        show isRuntimeTok "--lib" = false from by decide,
        show isRuntimeTok "." = false from by decide]
  rw [hl, hp, ho, hb, hs, hf, hr, he, hu]

theorem occursIn_append_left (x a b : String) (h : occursIn x b) : occursIn x (a ++ b) := by
  obtain ⟨s, t, hst⟩ := h
  refine ⟨a.data ++ s, t, ?_⟩
  rw [String.data_append, ← hst]
  simp [List.append_assoc]

theorem occursIn_mem_cat (t : String) : ∀ (ts : List String), t ∈ ts →
    occursIn t (catTokens ts) := by
  intro ts
  induction ts with
  | nil =>
      intro h
      exact absurd h (List.not_mem_nil t)
  | cons u ts ih =>
      intro h
      rcases List.mem_cons.mp h with h1 | h2
      · rw [h1]
        show occursIn u ((u ++ " ") ++ catTokens ts)
        refine ⟨[], (" " ++ catTokens ts).data, ?_⟩
        rw [String.data_append, String.data_append, String.data_append]
        simp [List.append_assoc]
      · show occursIn t ((u ++ " ") ++ catTokens ts)
        exact occursIn_append_left t (u ++ " ") (catTokens ts) (ih h2)

/-- C1: for every library source and every pair of paths, the rendering of the
options produced by `default_for` contains, in this order, the clauses
`-o "<output>"` (Debug-quoted output path), ` -O3 `, `--disable bulk-memory `,
`--disable sign-extension `, `--disable nontrapping-f2i `,
`--runtime incremental `, `--noExportMemory ` and
`--lib . --use abort=custom_abort `. -/
theorem default_render_contains_clauses (src : String) (f : Feature) (sp op : String) :
    containsInOrder ((CompilerOptions.default_for src).to_npx_command f sp op)
      ["-o " ++ pathDebug op, " -O3 ", "--disable bulk-memory ", "--disable sign-extension ",
       "--disable nontrapping-f2i ", "--runtime incremental ", "--noExportMemory ",
       "--lib . --use abort=custom_abort "] := by
  have key : (CompilerOptions.default_for src).to_npx_command f sp op
      = (runtimeCommand f ++ (" " ++ (pathDebug sp ++ " "))) ++ (("-o " ++ pathDebug op) ++
        " -O3 --disable bulk-memory --disable sign-extension --disable nontrapping-f2i --runtime incremental --noExportMemory --lib . --use abort=custom_abort ") := by
    show runtimeCommand f ++ " " ++ pathDebug sp ++ " -o " ++ pathDebug op ++ " " ++ "-O3 " ++
        "--disable bulk-memory " ++ "--disable sign-extension " ++ "--disable nontrapping-f2i " ++
        "--runtime incremental " ++ "--noExportMemory " ++ "--lib . --use abort=custom_abort " = _
    rw [show (" -o " : String) = " " ++ "-o " from rfl]
    rw [show (" -O3 --disable bulk-memory --disable sign-extension --disable nontrapping-f2i --runtime incremental --noExportMemory --lib . --use abort=custom_abort " : String)
        = " " ++ ("-O3 " ++ ("--disable bulk-memory " ++ ("--disable sign-extension " ++
          ("--disable nontrapping-f2i " ++ ("--runtime incremental " ++ ("--noExportMemory " ++
          "--lib . --use abort=custom_abort ")))))) from rfl]
    simp only [String.append_assoc]
  refine ⟨runtimeCommand f ++ (" " ++ (pathDebug sp ++ " ")),
    " -O3 --disable bulk-memory --disable sign-extension --disable nontrapping-f2i --runtime incremental --noExportMemory --lib . --use abort=custom_abort ",
    key, "",
    "--disable bulk-memory --disable sign-extension --disable nontrapping-f2i --runtime incremental --noExportMemory --lib . --use abort=custom_abort ",
    rfl, "",
    "--disable sign-extension --disable nontrapping-f2i --runtime incremental --noExportMemory --lib . --use abort=custom_abort ",
    rfl, "",
    "--disable nontrapping-f2i --runtime incremental --noExportMemory --lib . --use abort=custom_abort ",
    rfl, "",
    "--runtime incremental --noExportMemory --lib . --use abort=custom_abort ",
    rfl, "",
    "--noExportMemory --lib . --use abort=custom_abort ",
    rfl, "",
    "--lib . --use abort=custom_abort ",
    rfl, "", "", rfl, trivial⟩

/-- C9: the `source` field does not influence rendering: two options values
differing only in `source` render identically for every feature and paths. -/
theorem source_not_rendered (o : CompilerOptions) (s1 s2 : String) (f : Feature)
    (sp op : String) :
    ({ o with source := s1 } : CompilerOptions).to_npx_command f sp op
      = ({ o with source := s2 } : CompilerOptions).to_npx_command f sp op := rfl

/-- C10: `default_for s` sets O3, all four enable toggles false, trap_on_abort
true, the Incremental runtime, an empty `flag_use` map, and `source = s`. -/
theorem default_for_fields (s : String) :
    (CompilerOptions.default_for s).optimization_strategy = OptimizationStrategy.O3 ∧
    (CompilerOptions.default_for s).enable_bulk_memory = false ∧
    (CompilerOptions.default_for s).enable_sign_extension = false ∧
    (CompilerOptions.default_for s).enable_nontrapping_f2i = false ∧
    (CompilerOptions.default_for s).enable_export_memory = false ∧
    (CompilerOptions.default_for s).trap_on_abort = true ∧
    (CompilerOptions.default_for s).runtime = RuntimeStrategy.Incremental ∧
    (CompilerOptions.default_for s).flag_use = [] ∧
    (CompilerOptions.default_for s).source = s :=
  ⟨rfl, rfl, rfl, rfl, rfl, rfl, rfl, rfl, rfl⟩

/-- C2: the custom-bindings clause follows the 2x2 policy over
(`flag_use` empty?, `trap_on_abort`?): no trap and empty map emit nothing;
no trap and map `x=y` emit exactly `--use x=y ` with no `--lib .` and no
`abort=custom_abort`; trap emits the `--lib . --use` clause whose token list
is one `key=value` per entry plus the `abort=custom_abort` token. -/
theorem flag_use_clause_policy (o : CompilerOptions) :
    (o.trap_on_abort = false → o.flag_use = [] → o.flag_use_clause = "") ∧
    (o.trap_on_abort = false → o.flag_use = [("x", "y")] →
      o.flag_use_clause = "--use x=y " ∧ ¬ occursIn "--lib ." o.flag_use_clause ∧
        ¬ occursIn "abort=custom_abort" o.flag_use_clause) ∧
    (o.trap_on_abort = true →
      o.flag_use_clause = "--lib . --use " ++ String.intercalate " " o.use_tokens ++ " " ∧
        o.use_tokens = o.flag_use.map kvToken ++ ["abort=custom_abort"]) := by
  refine ⟨?_, ?_, ?_⟩
  · intro h1 h2
    unfold CompilerOptions.flag_use_clause
    rw [h1, h2]
    rfl
  · intro h1 h2
    have hc : o.flag_use_clause = "--use x=y " := by
      unfold CompilerOptions.flag_use_clause
      rw [h1, h2]
      rfl
    exact ⟨hc, by rw [hc]; decide, by rw [hc]; decide⟩
  · intro h1
    have ht : o.use_tokens = (o.flag_use ++ [("abort", "custom_abort")]).map kvToken := by
      unfold CompilerOptions.use_tokens
      rw [h1, if_pos rfl]
    constructor
    · unfold CompilerOptions.flag_use_clause
      rw [h1, ht]
      cases hE : o.flag_use.isEmpty <;> rfl
    · rw [ht, List.map_append]
      rfl

/-- C2 witness: the three policy branches evaluated at concrete options. -/
theorem flag_use_clause_policy_witness :
    ({ CompilerOptions.default_for "s" with trap_on_abort := false } :
        CompilerOptions).flag_use_clause = "" ∧
    ({ { CompilerOptions.default_for "s" with trap_on_abort := false } with
        flag_use := [("x", "y")] } : CompilerOptions).flag_use_clause = "--use x=y " ∧
    ({ CompilerOptions.default_for "s" with flag_use := [("x", "y")] } :
        CompilerOptions).use_tokens = [("x", "y")].map kvToken ++ ["abort=custom_abort"] :=
  ⟨(flag_use_clause_policy _).1 rfl rfl,
   ((flag_use_clause_policy _).2.1 rfl rfl).1,
   ((flag_use_clause_policy _).2.2 rfl).2⟩

/-- C5 counterexample: no options value with the default trap-on-abort
behavior makes `abort=custom_abort` a non-final `key=value` token; the claim
that some options value puts it elsewhere is false. -/
theorem abort_not_last_refuted :
    ¬ ∃ (l : List (String × String)),
      ({ CompilerOptions.default_for "lib" with flag_use := l } :
          CompilerOptions).use_tokens.getLast? ≠ some "abort=custom_abort" := by
  rintro ⟨l, h⟩
  apply h
  have h1 : ({ CompilerOptions.default_for "lib" with flag_use := l } :
      CompilerOptions).use_tokens = (l ++ [("abort", "custom_abort")]).map kvToken := rfl
  rw [h1, List.map_append]
  simp [kvToken]

/-- C5 (amended): with `trap_on_abort` set, the synthetic `abort=custom_abort`
pair is chained after the whole `flag_use` iteration, so it is always the
final `key=value` token; only the relative order of the map's own tokens is
unspecified. -/
theorem abort_token_is_final (o : CompilerOptions) (h : o.trap_on_abort = true) :
    o.use_tokens = o.flag_use.map kvToken ++ ["abort=custom_abort"] ∧
    o.use_tokens.getLast? = some "abort=custom_abort" := by
  have h1 : o.use_tokens = (o.flag_use ++ [("abort", "custom_abort")]).map kvToken := by
    unfold CompilerOptions.use_tokens
    rw [h, if_pos rfl]
  constructor
  · rw [h1, List.map_append]
    rfl
  · rw [h1, List.map_append]
    simp [kvToken]

/-- C5 witness: the amended statement evaluated at a nonempty concrete map. -/
theorem abort_token_is_final_witness :
    ({ CompilerOptions.default_for "lib" with flag_use := [("x", "y")] } :
        CompilerOptions).use_tokens = [("x", "y")].map kvToken ++ ["abort=custom_abort"] ∧
    ({ CompilerOptions.default_for "lib" with flag_use := [("x", "y")] } :
        CompilerOptions).use_tokens.getLast? = some "abort=custom_abort" :=
  abort_token_is_final _ rfl

/-- C3 counterexample: for the source path `a -O1 b`, whose Debug quotation
still contains whitespace, the tokenization of the rendered default command
holds two optimization-level tokens, not exactly one. -/
theorem opt_token_count_two_for_space_path :
    (tokensOf ((CompilerOptions.default_for "lib").to_npx_command Feature.nodejs
        "a -O1 b" "out")).countP isOptTok = 2 ∧
    ¬ ((tokensOf ((CompilerOptions.default_for "lib").to_npx_command Feature.nodejs
        "a -O1 b" "out")).countP isOptTok = 1) := by
  constructor
  · decide
  · decide

/-- C3 (amended): for every options value whose `flag_use` keys and values are
whitespace-free and every pair of whitespace-free paths, the rendered string,
tokenized on whitespace, contains exactly one `-O1`/`-O2`/`-O3` token and
exactly one `--runtime` token. -/
theorem token_counts_unique (o : CompilerOptions) (f : Feature) (sp op : String)
    (hsp : wsFree sp) (hop : wsFree op)
    (hkv : ∀ kv ∈ o.flag_use, wsFree kv.1 ∧ wsFree kv.2) :
    (tokensOf (o.to_npx_command f sp op)).countP isOptTok = 1 ∧
    (tokensOf (o.to_npx_command f sp op)).countP isRuntimeTok = 1 := by
  rw [tokensOf_to_npx o f sp op hsp hop hkv]
  exact ⟨countP_opt_command o f sp op, countP_runtime_command o f sp op⟩

/-- C3 witness: the amended statement evaluated at whitespace-free inputs. -/
theorem token_counts_unique_witness :
    wsFree "a" ∧ wsFree "b" ∧
    (∀ kv ∈ ({ CompilerOptions.default_for "lib" with flag_use := [("x", "y")] } :
        CompilerOptions).flag_use, wsFree kv.1 ∧ wsFree kv.2) ∧
    (tokensOf (({ CompilerOptions.default_for "lib" with flag_use := [("x", "y")] } :
        CompilerOptions).to_npx_command Feature.bun "a" "b")).countP isOptTok = 1 ∧
    (tokensOf (({ CompilerOptions.default_for "lib" with flag_use := [("x", "y")] } :
        CompilerOptions).to_npx_command Feature.bun "a" "b")).countP isRuntimeTok = 1 :=
  ⟨by decide, by decide, by decide,
   (token_counts_unique _ Feature.bun "a" "b" (by decide) (by decide) (by decide)).1,
   (token_counts_unique _ Feature.bun "a" "b" (by decide) (by decide) (by decide)).2⟩

/-- C4: with `trap_on_abort` set and a user entry for the key `abort`, the
token list of the custom-bindings clause keeps the user token inside the map
part and appends the synthetic `abort=custom_abort` separately, and both
tokens occur in the rendered string: the merge concatenates, it does not
overwrite. -/
theorem duplicate_abort_tokens (o : CompilerOptions) (f : Feature) (sp op : String)
    (v : String) (hm : ("abort", v) ∈ o.flag_use) (ht : o.trap_on_abort = true) :
    (∃ pre, o.use_tokens = pre ++ ["abort=custom_abort"] ∧ ("abort=" ++ v) ∈ pre) ∧
    occursIn ("abort=" ++ v) (o.to_npx_command f sp op) ∧
    occursIn "abort=custom_abort" (o.to_npx_command f sp op) := by
  have hu : o.use_tokens = o.flag_use.map kvToken ++ ["abort=custom_abort"] := by
    unfold CompilerOptions.use_tokens
    rw [ht, if_pos rfl, List.map_append]
    rfl
  have hmem : ("abort=" ++ v) ∈ o.use_clause_tokens := by
    unfold CompilerOptions.use_clause_tokens
    rw [ht]
    cases hE : o.flag_use.isEmpty <;>
      exact List.mem_cons_of_mem _ (List.mem_cons_of_mem _ (List.mem_cons_of_mem _
        (List.mem_map.mpr ⟨("abort", v), List.mem_append_left _ hm, rfl⟩)))
  have hmem2 : "abort=custom_abort" ∈ o.use_clause_tokens := by
    unfold CompilerOptions.use_clause_tokens
    rw [ht]
    cases hE : o.flag_use.isEmpty <;>
      exact List.mem_cons_of_mem _ (List.mem_cons_of_mem _ (List.mem_cons_of_mem _
        (List.mem_map.mpr ⟨("abort", "custom_abort"),
          List.mem_append_right _ (by simp), rfl⟩)))
  have hsplit : o.to_npx_command f sp op
      = (runtimeCommand f ++ " " ++ pathDebug sp ++ " -o " ++ pathDebug op ++ " " ++
          o.flag_optimization ++ o.flag_bulk_memory ++ o.flag_sign_extension ++
          o.flag_non_trapping_f2i ++ o.flag_runtime ++ o.flag_export_memory) ++
        o.flag_use_clause := rfl
  refine ⟨⟨o.flag_use.map kvToken, hu, List.mem_map.mpr ⟨("abort", v), hm, rfl⟩⟩, ?_, ?_⟩
  · rw [hsplit]
    apply occursIn_append_left
    rw [← use_cat]
    exact occursIn_mem_cat _ _ hmem
  · rw [hsplit]
    apply occursIn_append_left
    rw [← use_cat]
    exact occursIn_mem_cat _ _ hmem2

/-- C4 witness: duplicate abort tokens at a concrete options value. -/
theorem duplicate_abort_tokens_witness :
    ("abort", "boom") ∈ ({ CompilerOptions.default_for "lib" with
        flag_use := [("abort", "boom")] } : CompilerOptions).flag_use ∧
    (∃ pre, ({ CompilerOptions.default_for "lib" with flag_use := [("abort", "boom")] } :
        CompilerOptions).use_tokens = pre ++ ["abort=custom_abort"] ∧
      ("abort=" ++ "boom") ∈ pre) ∧
    occursIn ("abort=" ++ "boom")
      (({ CompilerOptions.default_for "lib" with flag_use := [("abort", "boom")] } :
        CompilerOptions).to_npx_command Feature.nodejs "a" "b") ∧
    occursIn "abort=custom_abort"
      (({ CompilerOptions.default_for "lib" with flag_use := [("abort", "boom")] } :
        CompilerOptions).to_npx_command Feature.nodejs "a" "b") :=
  ⟨by decide, duplicate_abort_tokens _ Feature.nodejs "a" "b" "boom" (by decide) rfl⟩

/-- C6: setting one capability toggle to true removes exactly its
`--disable <feature>` clause (and `enable_export_memory` removes
`--noExportMemory`), emitting nothing in its place, while every other clause
of the rendered string is unchanged: the surrounding parts A and B do not
depend on the toggle. -/
theorem toggle_removes_exact_token (o : CompilerOptions) (f : Feature) (sp op : String) :
    (∃ A B, ∀ b, ({ o with enable_bulk_memory := b } : CompilerOptions).to_npx_command f sp op
        = A ++ ((if b then "" else "--disable bulk-memory ") ++ B)) ∧
    (∃ A B, ∀ b, ({ o with enable_sign_extension := b } : CompilerOptions).to_npx_command f sp op
        = A ++ ((if b then "" else "--disable sign-extension ") ++ B)) ∧
    (∃ A B, ∀ b, ({ o with enable_nontrapping_f2i := b } : CompilerOptions).to_npx_command f sp op
        = A ++ ((if b then "" else "--disable nontrapping-f2i ") ++ B)) ∧
    (∃ A B, ∀ b, ({ o with enable_export_memory := b } : CompilerOptions).to_npx_command f sp op
        = A ++ ((if b then "" else "--noExportMemory ") ++ B)) := by
  refine ⟨⟨runtimeCommand f ++ " " ++ pathDebug sp ++ " -o " ++ pathDebug op ++ " " ++
      o.flag_optimization,
      o.flag_sign_extension ++ (o.flag_non_trapping_f2i ++ (o.flag_runtime ++
        (o.flag_export_memory ++ o.flag_use_clause))), ?_⟩,
    ⟨runtimeCommand f ++ " " ++ pathDebug sp ++ " -o " ++ pathDebug op ++ " " ++
      o.flag_optimization ++ o.flag_bulk_memory,
      o.flag_non_trapping_f2i ++ (o.flag_runtime ++ (o.flag_export_memory ++
        o.flag_use_clause)), ?_⟩,
    ⟨runtimeCommand f ++ " " ++ pathDebug sp ++ " -o " ++ pathDebug op ++ " " ++
      o.flag_optimization ++ o.flag_bulk_memory ++ o.flag_sign_extension,
      o.flag_runtime ++ (o.flag_export_memory ++ o.flag_use_clause), ?_⟩,
    ⟨runtimeCommand f ++ " " ++ pathDebug sp ++ " -o " ++ pathDebug op ++ " " ++
      o.flag_optimization ++ o.flag_bulk_memory ++ o.flag_sign_extension ++
      o.flag_non_trapping_f2i ++ o.flag_runtime,
      o.flag_use_clause, ?_⟩⟩ <;> intro b <;> cases b
  · show runtimeCommand f ++ " " ++ pathDebug sp ++ " -o " ++ pathDebug op ++ " " ++
        o.flag_optimization ++ "--disable bulk-memory " ++ o.flag_sign_extension ++
        o.flag_non_trapping_f2i ++ o.flag_runtime ++ o.flag_export_memory ++
        o.flag_use_clause = _
    simp only [String.append_assoc]
    rfl
  · show runtimeCommand f ++ " " ++ pathDebug sp ++ " -o " ++ pathDebug op ++ " " ++
        o.flag_optimization ++ "" ++ o.flag_sign_extension ++ o.flag_non_trapping_f2i ++
        o.flag_runtime ++ o.flag_export_memory ++ o.flag_use_clause = _
    rw [sappend_empty, if_pos rfl, sempty_append]
    simp only [String.append_assoc]
  · show runtimeCommand f ++ " " ++ pathDebug sp ++ " -o " ++ pathDebug op ++ " " ++
        o.flag_optimization ++ o.flag_bulk_memory ++ "--disable sign-extension " ++
        o.flag_non_trapping_f2i ++ o.flag_runtime ++ o.flag_export_memory ++
        o.flag_use_clause = _
    simp only [String.append_assoc]
    rfl
  · show runtimeCommand f ++ " " ++ pathDebug sp ++ " -o " ++ pathDebug op ++ " " ++
        o.flag_optimization ++ o.flag_bulk_memory ++ "" ++ o.flag_non_trapping_f2i ++
        o.flag_runtime ++ o.flag_export_memory ++ o.flag_use_clause = _
    rw [sappend_empty, if_pos rfl, sempty_append]
    simp only [String.append_assoc]
  · show runtimeCommand f ++ " " ++ pathDebug sp ++ " -o " ++ pathDebug op ++ " " ++
        o.flag_optimization ++ o.flag_bulk_memory ++ o.flag_sign_extension ++
        "--disable nontrapping-f2i " ++ o.flag_runtime ++ o.flag_export_memory ++
        o.flag_use_clause = _
    simp only [String.append_assoc]
    rfl
  · show runtimeCommand f ++ " " ++ pathDebug sp ++ " -o " ++ pathDebug op ++ " " ++
        o.flag_optimization ++ o.flag_bulk_memory ++ o.flag_sign_extension ++ "" ++
        o.flag_runtime ++ o.flag_export_memory ++ o.flag_use_clause = _
    rw [sappend_empty, if_pos rfl, sempty_append]
    simp only [String.append_assoc]
  · show runtimeCommand f ++ " " ++ pathDebug sp ++ " -o " ++ pathDebug op ++ " " ++
        o.flag_optimization ++ o.flag_bulk_memory ++ o.flag_sign_extension ++
        o.flag_non_trapping_f2i ++ o.flag_runtime ++ "--noExportMemory " ++
        o.flag_use_clause = _
    simp only [String.append_assoc]
    rfl
  · show runtimeCommand f ++ " " ++ pathDebug sp ++ " -o " ++ pathDebug op ++ " " ++
        o.flag_optimization ++ o.flag_bulk_memory ++ o.flag_sign_extension ++
        o.flag_non_trapping_f2i ++ o.flag_runtime ++ "" ++ o.flag_use_clause = _
    rw [sappend_empty, if_pos rfl]
    simp only [String.append_assoc, sempty_append]

/-- C7: rendering is a pure function of its arguments, and two renders that
differ only in the iteration order of `flag_use` share the identical non-use
part A, have permutation-equivalent `key=value` token lists, and coincide
byte-for-byte whenever the iteration orders coincide. -/
theorem render_unique_up_to_use_order (o : CompilerOptions)
    (l1 l2 : List (String × String)) (f : Feature) (sp op : String) (hp : l1.Perm l2) :
    (({ o with flag_use := l1 } : CompilerOptions).use_tokens).Perm
      (({ o with flag_use := l2 } : CompilerOptions).use_tokens) ∧
    (∃ A, ({ o with flag_use := l1 } : CompilerOptions).to_npx_command f sp op
          = A ++ ({ o with flag_use := l1 } : CompilerOptions).flag_use_clause ∧
        ({ o with flag_use := l2 } : CompilerOptions).to_npx_command f sp op
          = A ++ ({ o with flag_use := l2 } : CompilerOptions).flag_use_clause) ∧
    (l1 = l2 → ({ o with flag_use := l1 } : CompilerOptions).to_npx_command f sp op
        = ({ o with flag_use := l2 } : CompilerOptions).to_npx_command f sp op) := by
  refine ⟨?_, ⟨runtimeCommand f ++ " " ++ pathDebug sp ++ " -o " ++ pathDebug op ++ " " ++
    o.flag_optimization ++ o.flag_bulk_memory ++ o.flag_sign_extension ++
    o.flag_non_trapping_f2i ++ o.flag_runtime ++ o.flag_export_memory, rfl, rfl⟩, ?_⟩
  · have h1 : ∀ (l : List (String × String)),
        ({ o with flag_use := l } : CompilerOptions).use_tokens
          = if o.trap_on_abort then (l ++ [("abort", "custom_abort")]).map kvToken
            else l.map kvToken := fun l => rfl
    rw [h1, h1]
    cases o.trap_on_abort
    · exact hp.map kvToken
    · exact (hp.append_right [("abort", "custom_abort")]).map kvToken
  · intro h
    subst h
    rfl

/-- C7 witness: two permuted two-entry maps at concrete options. -/
theorem render_unique_up_to_use_order_witness :
    ([("a", "1"), ("b", "2")] : List (String × String)).Perm [("b", "2"), ("a", "1")] ∧
    ((({ CompilerOptions.default_for "lib" with flag_use := [("a", "1"), ("b", "2")] } :
        CompilerOptions).use_tokens).Perm
      (({ CompilerOptions.default_for "lib" with flag_use := [("b", "2"), ("a", "1")] } :
        CompilerOptions).use_tokens) ∧
    (∃ A, ({ CompilerOptions.default_for "lib" with flag_use := [("a", "1"), ("b", "2")] } :
          CompilerOptions).to_npx_command Feature.deno "a" "b"
          = A ++ ({ CompilerOptions.default_for "lib" with
              flag_use := [("a", "1"), ("b", "2")] } : CompilerOptions).flag_use_clause ∧
        ({ CompilerOptions.default_for "lib" with flag_use := [("b", "2"), ("a", "1")] } :
          CompilerOptions).to_npx_command Feature.deno "a" "b"
          = A ++ ({ CompilerOptions.default_for "lib" with
              flag_use := [("b", "2"), ("a", "1")] } : CompilerOptions).flag_use_clause) ∧
    ([("a", "1"), ("b", "2")] = ([("b", "2"), ("a", "1")] : List (String × String)) →
        ({ CompilerOptions.default_for "lib" with flag_use := [("a", "1"), ("b", "2")] } :
          CompilerOptions).to_npx_command Feature.deno "a" "b"
          = ({ CompilerOptions.default_for "lib" with
              flag_use := [("b", "2"), ("a", "1")] } :
            CompilerOptions).to_npx_command Feature.deno "a" "b")) :=
  ⟨by decide, render_unique_up_to_use_order _ _ _ Feature.deno "a" "b" (by decide)⟩

/-- C8: rendering is total and cannot fail: every options value, however
pathological, together with any feature and paths, renders to some string,
namely the launcher followed by the flag clauses, and that string is never
empty. -/
theorem render_total_nonempty (o : CompilerOptions) (f : Feature) (sp op : String) :
    (∃ rest, o.to_npx_command f sp op = runtimeCommand f ++ rest) ∧
    o.to_npx_command f sp op ≠ "" := by
  have hrest : o.to_npx_command f sp op
      = runtimeCommand f ++ (" " ++ (pathDebug sp ++ (" -o " ++ (pathDebug op ++ (" " ++
        (o.flag_optimization ++ (o.flag_bulk_memory ++ (o.flag_sign_extension ++
        (o.flag_non_trapping_f2i ++ (o.flag_runtime ++ (o.flag_export_memory ++
        o.flag_use_clause))))))))))) := by
    unfold CompilerOptions.to_npx_command
    simp only [String.append_assoc]
  refine ⟨⟨_, hrest⟩, ?_⟩
  intro h
  rw [hrest] at h
  have hd := congrArg String.data h
  rw [String.data_append, show ("" : String).data = [] from rfl] at hd
  have h2 := List.append_eq_nil.mp hd
  have h3 : (runtimeCommand f).data ≠ [] := by cases f <;> decide
  exact h3 h2.1

end AscOptions
